import Mathlib

set_option maxHeartbeats 1000000

/-!
Verification of the ASCII-Webcam renderer (src/main.py) against its
natural-language specification.  Pure numeric helpers of the pipeline are
embedded as functions over exact rationals (Python floats are modelled by
exact rational arithmetic; Python `int()` is truncation toward zero), and
the per-cell render loop of `updateCanvas` is embedded as a state machine
over explicit render state with an observable trace of display operations.
-/

/-- Fixed glyph ramp, src/main.py line 9: `ASCII_CHARS = "@%#*+=-:. "`. -/
def ASCII_CHARS : String := "@%#*+=-:. "

/-- Python `int()` conversion applied to a rational value: truncation
toward zero, which is floor for nonnegative arguments and ceiling for
negative ones. -/
def pyInt (q : ℚ) : ℤ := if q < 0 then ⌈q⌉ else ⌊q⌋

/-- Glyph index computation, src/main.py lines 100-101:
`idx = int((brightness - 10) / (255 - 10) * (len(ASCII_CHARS) - 1))`
followed by `idx = max(0, min(len(ASCII_CHARS) - 1, idx))`. -/
def glyphIdxCode (brightness : ℕ) : ℕ :=
  (max 0 (min ((ASCII_CHARS.length : ℤ) - 1)
    (pyInt (((brightness : ℚ) - 10) / ((255 : ℚ) - 10) * ((ASCII_CHARS.length : ℚ) - 1))))).toNat

/-- Modelled from the spec: glyph index as
`round((b-10)/(255-10) * (rampLength-1))`, clamped to `[0, rampLength-1]`.
This is the spec's stated formula, to be compared with `glyphIdxCode`,
which is the transcription of the source. -/
def glyphIdxSpecRound (b : ℕ) : ℕ :=
  (max 0 (min ((ASCII_CHARS.length : ℤ) - 1)
    (round (((b : ℚ) - 10) / ((255 : ℚ) - 10) * ((ASCII_CHARS.length : ℚ) - 1))))).toNat

/-- Round half to even: the integer nearest to x, with ties resolved to
the even integer.  This is the rounding used by IEEE-754 binary64 in the
default rounding mode. -/
def rhe (x : ℚ) : ℤ :=
  if x - ⌊x⌋ < 1 / 2 then ⌊x⌋
  else if 1 / 2 < x - ⌊x⌋ then ⌊x⌋ + 1
  else if 2 ∣ ⌊x⌋ then ⌊x⌋ else ⌊x⌋ + 1

/-- IEEE-754 binary64 rounding (round to nearest, ties to even) of a
nonnegative rational: the value is scaled so that its significand has 53
bits, rounded half-to-even, and scaled back.  Exponent-range limits
(subnormals, overflow) are not modelled; every value that arises in the
resize computation lies well inside the normal range, where this agrees
exactly with Python float arithmetic. -/
def fl (x : ℚ) : ℚ :=
  if x = 0 then 0
  else (rhe (x / 2 ^ (Int.log 2 x - 52)) : ℚ) * 2 ^ (Int.log 2 x - 52)

/-- The height computation of src/main.py line 15, which Python performs
in binary64 floats: `newWidth * aspectRatio * 0.55` associates as
`(newWidth * (height / width)) * 0.55`, with the int division
`height / width` correctly rounded to a double, each multiplication
rounded after an exact real product, and the literal `0.55` itself the
binary64 value nearest to 11/20. -/
def resizeHeightFloat (w h newWidth : ℕ) : ℚ :=
  fl (fl ((newWidth : ℚ) * fl ((h : ℚ) / (w : ℚ))) * fl (0.55 : ℚ))

/-- Output dimensions of the resize step, src/main.py lines 12-16:
`aspectRatio = height / width`, `newHeight = int(newWidth * aspectRatio * 0.55)`
evaluated in binary64 floats, and `cv2.resize(frame, (newWidth, newHeight))`
returns a frame of exactly `newWidth` columns and `newHeight` rows.
Result is `(width, height)`. -/
def resizeFrameDims (w h newWidth : ℕ) : ℕ × ℕ :=
  (newWidth, (pyInt (resizeHeightFloat w h newWidth)).toNat)

/-- Modelled from the spec: resized height as
`round(width * (sourceHeight/sourceWidth) * 0.55)`.  This is the spec's
stated formula, to be compared with `resizeFrameDims`, which is the
transcription of the source. -/
def specResizeHeight (w h newWidth : ℕ) : ℤ :=
  round ((newWidth : ℚ) * ((h : ℚ) / (w : ℚ)) * 0.55)

/-- Channel quantization of `compressColor`, src/main.py lines 39-41:
each of r, g, b is replaced by `(channel // 64) * 64`. -/
def compressRGB (r g b : ℕ) : ℕ × ℕ × ℕ :=
  ((r / 64) * 64, (g / 64) * 64, (b / 64) * 64)

/-- One lowercase hexadecimal digit, as produced by Python's `x` format. -/
def hexDigit (n : ℕ) : Char :=
  if n < 10 then Char.ofNat (48 + n) else Char.ofNat (87 + n)

/-- Two-digit lowercase hexadecimal rendering of a byte, Python `02x`. -/
def hex2 (n : ℕ) : String := String.mk [hexDigit (n / 16), hexDigit (n % 16)]

/-- Color compression, src/main.py lines 38-42: quantize each channel to a
multiple of 64 and format as `#rrggbb`. -/
def compressColor (r g b : ℕ) : String :=
  "#" ++ hex2 (compressRGB r g b).1 ++ hex2 (compressRGB r g b).2.1
      ++ hex2 (compressRGB r g b).2.2

/-- Cell pixel width, src/main.py line 75. -/
def cellWidth : ℕ := 5

/-- Cell pixel height, src/main.py line 75. -/
def cellHeight : ℕ := 9

/-- A processed frame as seen by the per-cell loop of `updateCanvas`:
`gray y x` is the brightness at row y, column x (line 94), and
`proc y x` is the processed pixel `(b, g, r)` at row y, column x
(line 98).  `rows`/`cols` come from `gray.shape` (line 87). -/
structure AsciiFrame where
  rows : ℕ
  cols : ℕ
  gray : ℕ → ℕ → ℕ
  proc : ℕ → ℕ → ℕ × ℕ × ℕ

/-- Observable operations against the canvas: `create` models
`canvas.create_text` (lines 112-120), `itemconfig` models
`canvas.itemconfig` (line 110). -/
inductive DisplayOp where
  | create (pos : ℕ × ℕ) (px py : ℤ) (ch : Char) (color : String)
  | itemconfig (pos : ℕ × ℕ) (ch : Char) (color : String)
deriving DecidableEq

/-- Grid position an operation addresses. -/
def DisplayOp.pos : DisplayOp → ℕ × ℕ
  | create p _ _ _ _ => p
  | itemconfig p _ _ => p

/-- Whether an operation creates a fresh display object. -/
def DisplayOp.isCreate : DisplayOp → Bool
  | create _ _ _ _ _ => true
  | itemconfig _ _ _ => false

/-- The glyph and color an operation draws. -/
def opValue : DisplayOp → Char × String
  | .create _ _ _ c col => (c, col)
  | .itemconfig _ c col => (c, col)

/-- Persistent renderer state of `renderAscii` (lines 73-74): `lastFrame`
maps a position to its last-rendered (glyph, color), `charMap` records
whether a display object was created for the position. -/
structure RenderState where
  lastFrame : ℕ × ℕ → Option (Char × String)
  charMap : ℕ × ℕ → Bool

/-- The empty dictionaries of lines 73-74. -/
def initState : RenderState :=
  RenderState.mk (fun _ => none) (fun _ => false)

/-- Pointwise update of a table, modelling `dict[pos] = v`. -/
def updateFun {α : Type} (g : ℕ × ℕ → α) (q : ℕ × ℕ) (v : α) : ℕ × ℕ → α :=
  fun p => if p = q then v else g p

/-- Glyph and color computed for a visible cell, lines 98-102:
`b, g, r = processed[y, x]`, `color = compressColor(r, g, b)`,
`char = ASCII_CHARS[idx]`. -/
def cellData (f : AsciiFrame) (y x : ℕ) : Char × String :=
  (ASCII_CHARS.toList.getD (glyphIdxCode (f.gray y x)) ' ',
   compressColor (f.proc y x).2.2 (f.proc y x).2.1 (f.proc y x).1)

/-- One iteration of the inner loop of `updateCanvas`, lines 93-120:
skip if brightness below 10; skip if the recorded state equals the new
(glyph, color); otherwise record it and either mutate the existing
display object or create one at `margin + (x*cellWidth, y*cellHeight)`. -/
def processCell (f : AsciiFrame) (mX mY : ℤ) (y x : ℕ) (s : RenderState) :
    RenderState × List DisplayOp :=
  if f.gray y x < 10 then (s, [])
  else if s.lastFrame (x, y) = some (cellData f y x) then (s, [])
  else if s.charMap (x, y) then
    (RenderState.mk (updateFun s.lastFrame (x, y) (some (cellData f y x))) s.charMap,
     [DisplayOp.itemconfig (x, y) (cellData f y x).1 (cellData f y x).2])
  else
    (RenderState.mk (updateFun s.lastFrame (x, y) (some (cellData f y x)))
       (updateFun s.charMap (x, y) true),
     [DisplayOp.create (x, y) (mX + (x : ℤ) * (cellWidth : ℤ))
        (mY + (y : ℤ) * (cellHeight : ℤ)) (cellData f y x).1 (cellData f y x).2])

/-- Sequential processing of a list of cells `(y, x)`, threading the
state and concatenating the emitted display operations. -/
def runCells (f : AsciiFrame) (mX mY : ℤ) :
    List (ℕ × ℕ) → RenderState → RenderState × List DisplayOp
  | [], s => (s, [])
  | c :: rest, s =>
    ((runCells f mX mY rest (processCell f mX mY c.1 c.2 s).1).1,
     (processCell f mX mY c.1 c.2 s).2
       ++ (runCells f mX mY rest (processCell f mX mY c.1 c.2 s).1).2)

/-- Row-major enumeration of the grid, lines 92-93:
`for y in range(rows): for x in range(cols)`. -/
def gridCells (rows cols : ℕ) : List (ℕ × ℕ) :=
  (List.range rows).flatMap (fun y => (List.range cols).map (fun x => (y, x)))

/-- One invocation of `updateCanvas` (lines 77-122) given the canvas
drawable size and the fetched frame (`none` models `fetcher.getFrame()`
returning None).  Returns the new state, the display operations emitted,
and whether the tick rescheduled itself (`root.after(1, updateCanvas)`,
lines 80 and 122 — always true). -/
def tick (cw chh : ℕ) (mf : Option AsciiFrame) (s : RenderState) :
    RenderState × List DisplayOp × Bool :=
  match mf with
  | none => (s, [], true)
  | some f =>
    ((runCells f (max 0 (Int.fdiv ((cw : ℤ) - (f.cols : ℤ) * (cellWidth : ℤ)) 2))
        (max 0 (Int.fdiv ((chh : ℤ) - (f.rows : ℤ) * (cellHeight : ℤ)) 2))
        (gridCells f.rows f.cols) s).1,
     (runCells f (max 0 (Int.fdiv ((cw : ℤ) - (f.cols : ℤ) * (cellWidth : ℤ)) 2))
        (max 0 (Int.fdiv ((chh : ℤ) - (f.rows : ℤ) * (cellHeight : ℤ)) 2))
        (gridCells f.rows f.cols) s).2,
     true)

/-- A run of successive render ticks, each with its canvas size and
fetched frame, accumulating the trace of display operations. -/
def runTicks : List (ℕ × ℕ × Option AsciiFrame) → RenderState → RenderState × List DisplayOp
  | [], s => (s, [])
  | i :: rest, s =>
    ((runTicks rest (tick i.1 i.2.1 i.2.2 s).1).1,
     (tick i.1 i.2.1 i.2.2 s).2.1 ++ (runTicks rest (tick i.1 i.2.1 i.2.2 s).1).2)

/-- Modelled from the spec: the margin that centers a grid of the given
pixel size within the available drawing area, `(avail - grid) / 2` with
floor division. -/
def specCenterMargin (avail grid : ℕ) : ℤ := Int.fdiv ((avail : ℤ) - (grid : ℤ)) 2

/-- Number of creation operations addressed to a position in a trace. -/
def createsAt (p : ℕ × ℕ) (l : List DisplayOp) : ℕ :=
  l.countP (fun op => op.isCreate && decide (op.pos = p))

/-- A cell agrees with the current frame: it is either invisible or its
recorded state equals the frame's (glyph, color) for it. -/
def agreesAt (f : AsciiFrame) (s : RenderState) (c : ℕ × ℕ) : Prop :=
  f.gray c.1 c.2 < 10 ∨ s.lastFrame (c.2, c.1) = some (cellData f c.1 c.2)

/-- The recorded state at position `p` is exactly the frame's value for
the cell at that position. -/
def settled (f : AsciiFrame) (s : RenderState) (p : ℕ × ℕ) : Prop :=
  s.lastFrame p = some (cellData f p.2 p.1)

/-- Domain invariant of the two tables: a position has recorded state
iff it has a created display object. -/
def domInv (s : RenderState) : Prop :=
  ∀ p, (s.lastFrame p).isSome ↔ s.charMap p = true

/-- Concrete 1 x 1 mid-gray frame used for concrete render evaluations. -/
def fSmall : AsciiFrame :=
  AsciiFrame.mk 1 1 (fun _ _ => 128) (fun _ _ => (128, 128, 128))

/-- Concrete 1 x 2 frame whose cell (x=0, y=0) is below the brightness
threshold, used for concrete render evaluations. -/
def fInv : AsciiFrame :=
  AsciiFrame.mk 1 2 (fun _ x => if x = 0 then 5 else 128) (fun _ _ => (100, 150, 200))

/-- A prior render state holding an entry at position (0, 0). -/
def sPrev : RenderState :=
  RenderState.mk (updateFun (fun _ => none) (0, 0) (some ('=', "#404080")))
    (updateFun (fun _ => false) (0, 0) true)

/- ### Helper lemmas for the numeric pipeline -/

lemma len_ascii : ASCII_CHARS.length = 10 := rfl

lemma pyInt_of_nonneg {q : ℚ} (h : 0 ≤ q) : pyInt q = ⌊q⌋ := by
  simp [pyInt, not_lt.mpr h]

lemma floor_natCast_div (a b : ℕ) (hb : 0 < b) :
    ⌊(a : ℚ) / (b : ℚ)⌋ = (a / b : ℕ) := by
  have hb' : (0 : ℚ) < (b : ℚ) := by exact_mod_cast hb
  rw [Int.floor_eq_iff]
  constructor
  · rw [le_div_iff₀ hb']
    exact_mod_cast Nat.div_mul_le_self a b
  · rw [div_lt_iff₀ hb']
    have hlt : a < (a / b + 1) * b := by
      have h1 := Nat.div_add_mod a b
      have h2 := Nat.mod_lt a hb
      calc a = b * (a / b) + a % b := h1.symm
        _ < b * (a / b) + b := by omega
        _ = (a / b + 1) * b := by ring
    exact_mod_cast hlt

lemma glyphIdxCode_eq (b : ℕ) (hb : 10 ≤ b) :
    glyphIdxCode b = min 9 ((b - 10) * 9 / 245) := by
  have hsub : ((b - 10 : ℕ) : ℚ) = (b : ℚ) - 10 := by
    rw [Nat.cast_sub hb]; norm_num
  have h9 : (((b - 10) * 9 : ℕ) : ℚ) = ((b : ℚ) - 10) * 9 := by
    rw [Nat.cast_mul, hsub]; norm_num
  have hq : ((b : ℚ) - 10) / ((255 : ℚ) - 10) * ((ASCII_CHARS.length : ℚ) - 1)
      = (((b - 10) * 9 : ℕ) : ℚ) / ((245 : ℕ) : ℚ) := by
    rw [h9, len_ascii]
    rw [div_mul_eq_mul_div, div_eq_div_iff (by norm_num) (by norm_num)]
    push_cast
    ring
  have h0 : (0 : ℚ) ≤ (((b - 10) * 9 : ℕ) : ℚ) / ((245 : ℕ) : ℚ) := by positivity
  have hfl := floor_natCast_div ((b - 10) * 9) 245 (by norm_num)
  simp only [glyphIdxCode]
  rw [hq, pyInt_of_nonneg h0, hfl]
  have hlenz : (ASCII_CHARS.length : ℤ) = 10 := by norm_num [len_ascii]
  rw [hlenz]
  omega

/- ### Claims about the numeric pipeline -/

/-- Claim C1, counterexample: at brightness 24 the source's truncating
index computation yields 0, while the spec's rounded formula yields 1, so
the glyph index produced by the mapper does not equal the rounded value. -/
theorem glyph_round_counterexample :
    glyphIdxCode 24 = 0 ∧ glyphIdxSpecRound 24 = 1 ∧
      glyphIdxCode 24 ≠ glyphIdxSpecRound 24 := by
  have hcode : glyphIdxCode 24 = 0 := by
    rw [glyphIdxCode_eq 24 (by norm_num)]
    decide
  have hround : round ((18 : ℚ) / 35) = 1 := by
    rw [round_eq]
    have h7 : ((18 : ℚ) / 35 + 1 / 2) = ((71 : ℕ) : ℚ) / ((70 : ℕ) : ℚ) := by norm_num
    rw [h7, floor_natCast_div 71 70 (by norm_num)]
    norm_num
  have hspec : glyphIdxSpecRound 24 = 1 := by
    have h6 : (((24 : ℕ) : ℚ) - 10) / ((255 : ℚ) - 10) * ((ASCII_CHARS.length : ℚ) - 1)
        = (18 : ℚ) / 35 := by
      norm_num [len_ascii]
    have hlenz : (ASCII_CHARS.length : ℤ) = 10 := by norm_num [len_ascii]
    simp only [glyphIdxSpecRound]
    rw [h6, hround, hlenz]
    decide
  exact ⟨hcode, hspec, by omega⟩

/-- Claim C1, amended: for every brightness `10 ≤ b ≤ 255` the glyph index
equals `floor((b-10)/(255-10) * (rampLength-1))` (truncation as computed by
Python `int`, not rounding), clamped to `[0, rampLength-1]`, where the ramp
`"@%#*+=-:. "` has length 10; in natural-number arithmetic this is
`min 9 ((b-10)*9/245)`. -/
theorem glyph_index_floor (b : ℕ) (h1 : 10 ≤ b) (h2 : b ≤ 255) :
    ASCII_CHARS.length = 10 ∧ glyphIdxCode b = min 9 ((b - 10) * 9 / 245) :=
  ⟨rfl, glyphIdxCode_eq b h1⟩

/-- Witness for the amended claim C1 at brightness 128. -/
theorem glyph_index_floor_witness :
    10 ≤ 128 ∧ 128 ≤ 255 ∧
      (ASCII_CHARS.length = 10 ∧ glyphIdxCode 128 = min 9 ((128 - 10) * 9 / 245)) :=
  ⟨by decide, by decide, glyph_index_floor 128 (by decide) (by decide)⟩

/-- Claim C7: over the visible brightness range `[10, 255]` the glyph
index is monotone non-decreasing. -/
theorem glyph_index_monotone (b1 b2 : ℕ) (h1 : 10 ≤ b1) (h12 : b1 ≤ b2)
    (h2 : b2 ≤ 255) : glyphIdxCode b1 ≤ glyphIdxCode b2 := by
  rw [glyphIdxCode_eq b1 h1, glyphIdxCode_eq b2 (le_trans h1 h12)]
  have hdiv : (b1 - 10) * 9 / 245 ≤ (b2 - 10) * 9 / 245 :=
    Nat.div_le_div_right (Nat.mul_le_mul_right 9 (Nat.sub_le_sub_right h12 10))
  exact min_le_min (le_refl 9) hdiv

/-- Witness for claim C7 at brightness values 50 and 200. -/
theorem glyph_index_monotone_witness :
    10 ≤ 50 ∧ 50 ≤ 200 ∧ 200 ≤ 255 ∧ glyphIdxCode 50 ≤ glyphIdxCode 200 :=
  ⟨by decide, by decide, by decide,
    glyph_index_monotone 50 200 (by decide) (by decide) (by decide)⟩

lemma rhe_dist (x : ℚ) : |((rhe x : ℤ) : ℚ) - x| ≤ 1 / 2 := by
  have h1 := Int.floor_le x
  have h2 := Int.lt_floor_add_one x
  unfold rhe
  split_ifs with ha hb hc <;> push_cast <;> rw [abs_le] <;> constructor <;> linarith

lemma rhe_nonneg {x : ℚ} (hx : 0 ≤ x) : 0 ≤ rhe x := by
  have h1 : 0 ≤ ⌊x⌋ := Int.floor_nonneg.mpr hx
  unfold rhe
  split_ifs <;> omega

lemma fl_nonneg (x : ℚ) (hx : 0 ≤ x) : 0 ≤ fl x := by
  unfold fl
  split_ifs with h0
  · exact le_refl 0
  · have hxpos : 0 < x := lt_of_le_of_ne hx (Ne.symm h0)
    have hp : (0 : ℚ) < (2 : ℚ) ^ (Int.log 2 x - 52) := by positivity
    have hm : 0 ≤ rhe (x / 2 ^ (Int.log 2 x - 52)) :=
      rhe_nonneg (div_nonneg hx (le_of_lt hp))
    have hm' : (0 : ℚ) ≤ ((rhe (x / 2 ^ (Int.log 2 x - 52)) : ℤ) : ℚ) := by
      exact_mod_cast hm
    exact mul_nonneg hm' (le_of_lt hp)

lemma fl_bounds (x : ℚ) (hx : 0 ≤ x) :
    x * (1 - 1 / 2 ^ 53) ≤ fl x ∧ fl x ≤ x * (1 + 1 / 2 ^ 53) := by
  rcases eq_or_lt_of_le hx with h0 | hxpos
  · constructor <;> simp [fl, ← h0]
  · have hlog1 : ((2 : ℕ) : ℚ) ^ Int.log 2 x ≤ x :=
      Int.zpow_log_le_self (by norm_num) hxpos
    have hlog2 : x < ((2 : ℕ) : ℚ) ^ (Int.log 2 x + 1) :=
      Int.lt_zpow_succ_log_self (by norm_num) x
    have hcast2 : ((2 : ℕ) : ℚ) = 2 := by norm_num
    rw [hcast2] at hlog1 hlog2
    set e : ℤ := Int.log 2 x - 52 with he
    have hp : (0 : ℚ) < (2 : ℚ) ^ e := by positivity
    have hm52 : (2 : ℚ) ^ (52 : ℤ) ≤ x / 2 ^ e := by
      rw [le_div_iff₀ hp, ← zpow_add₀ (by norm_num : (2 : ℚ) ≠ 0)]
      rw [show (52 : ℤ) + e = Int.log 2 x by rw [he]; ring]
      exact hlog1
    have hdist := rhe_dist (x / 2 ^ e)
    have hfl : fl x = ((rhe (x / 2 ^ e) : ℤ) : ℚ) * 2 ^ e := by
      unfold fl
      rw [if_neg (ne_of_gt hxpos), ← he]
    have hkey : |fl x - x| ≤ x * (1 / 2 ^ 53) := by
      rw [hfl]
      calc |((rhe (x / 2 ^ e) : ℤ) : ℚ) * 2 ^ e - x|
          = |(((rhe (x / 2 ^ e) : ℤ) : ℚ) - x / 2 ^ e) * 2 ^ e| := by
            congr 1
            rw [sub_mul, div_mul_cancel₀ _ (ne_of_gt hp)]
        _ = |((rhe (x / 2 ^ e) : ℤ) : ℚ) - x / 2 ^ e| * 2 ^ e := by
            rw [abs_mul, abs_of_pos hp]
        _ ≤ (1 / 2) * 2 ^ e := mul_le_mul_of_nonneg_right hdist (le_of_lt hp)
        _ ≤ x * (1 / 2 ^ 53) := by
            have hx52 := (le_div_iff₀ hp).mp hm52
            have hcoef : (2 : ℚ) ^ (52 : ℤ) * (1 / 2 ^ 53) = 1 / 2 := by norm_num
            calc (1 / 2 : ℚ) * 2 ^ e = ((2 : ℚ) ^ (52 : ℤ) * (1 / 2 ^ 53)) * 2 ^ e := by
                  rw [hcoef]
              _ = ((2 : ℚ) ^ (52 : ℤ) * 2 ^ e) * (1 / 2 ^ 53) := by ring
              _ ≤ x * (1 / 2 ^ 53) := mul_le_mul_of_nonneg_right hx52 (by norm_num)
    have habs := abs_le.mp hkey
    constructor
    · have hexp : x * (1 - 1 / 2 ^ 53) = x - x * (1 / 2 ^ 53) := by ring
      rw [hexp]
      linarith [habs.1]
    · have hexp : x * (1 + 1 / 2 ^ 53) = x + x * (1 / 2 ^ 53) := by ring
      rw [hexp]
      linarith [habs.2]

lemma fl_le_of_le {x B : ℚ} (hx : 0 ≤ x) (hB : x ≤ B) : fl x ≤ B * (1 + 1 / 2 ^ 53) :=
  le_trans (fl_bounds x hx).2 (mul_le_mul_of_nonneg_right hB (by norm_num))

lemma le_fl_of_le {x B : ℚ} (hx : 0 ≤ x) (hB : B ≤ x) : B * (1 - 1 / 2 ^ 53) ≤ fl x :=
  le_trans (mul_le_mul_of_nonneg_right hB (by norm_num)) (fl_bounds x hx).1

lemma resizeHeightFloat_nonneg (w h nW : ℕ) : 0 ≤ resizeHeightFloat w h nW := by
  unfold resizeHeightFloat
  have h1 : (0 : ℚ) ≤ (h : ℚ) / (w : ℚ) := by positivity
  have h2 : (0 : ℚ) ≤ fl ((h : ℚ) / (w : ℚ)) := fl_nonneg _ h1
  have h3 : (0 : ℚ) ≤ (nW : ℚ) * fl ((h : ℚ) / (w : ℚ)) := mul_nonneg (by positivity) h2
  have h4 : (0 : ℚ) ≤ fl ((nW : ℚ) * fl ((h : ℚ) / (w : ℚ))) := fl_nonneg _ h3
  have h5 : (0 : ℚ) ≤ fl (0.55 : ℚ) := fl_nonneg _ (by norm_num)
  exact fl_nonneg _ (mul_nonneg h4 h5)

lemma resizeHeightFloat_le (w h : ℕ) :
    resizeHeightFloat w h 150 ≤ 165 * (h : ℚ) / (2 * w) * (1 + 1 / 2 ^ 49) := by
  have ha : (0 : ℚ) ≤ (h : ℚ) / (w : ℚ) := by positivity
  have hx1 : (0 : ℚ) ≤ fl ((h : ℚ) / (w : ℚ)) := fl_nonneg _ ha
  have h1 : fl ((h : ℚ) / (w : ℚ)) ≤ ((h : ℚ) / (w : ℚ)) * (1 + 1 / 2 ^ 53) :=
    (fl_bounds _ ha).2
  have hy2 : (0 : ℚ) ≤ (150 : ℚ) * fl ((h : ℚ) / (w : ℚ)) := mul_nonneg (by norm_num) hx1
  have h2 : fl ((150 : ℚ) * fl ((h : ℚ) / (w : ℚ)))
      ≤ ((150 : ℚ) * (((h : ℚ) / (w : ℚ)) * (1 + 1 / 2 ^ 53))) * (1 + 1 / 2 ^ 53) :=
    fl_le_of_le hy2 (mul_le_mul_of_nonneg_left h1 (by norm_num))
  have h5 : fl (0.55 : ℚ) ≤ (11 / 20 : ℚ) * (1 + 1 / 2 ^ 53) := by
    have h55 := (fl_bounds (0.55 : ℚ) (by norm_num)).2
    have heq55 : (0.55 : ℚ) * (1 + 1 / 2 ^ 53) = (11 / 20 : ℚ) * (1 + 1 / 2 ^ 53) := by
      norm_num
    exact le_trans h55 (le_of_eq heq55)
  have hx2 : (0 : ℚ) ≤ fl ((150 : ℚ) * fl ((h : ℚ) / (w : ℚ))) := fl_nonneg _ hy2
  have hc5 : (0 : ℚ) ≤ fl (0.55 : ℚ) := fl_nonneg _ (by norm_num)
  have hB2 : (0 : ℚ) ≤ ((150 : ℚ) * (((h : ℚ) / (w : ℚ)) * (1 + 1 / 2 ^ 53))) * (1 + 1 / 2 ^ 53) :=
    mul_nonneg (mul_nonneg (by norm_num) (mul_nonneg ha (by norm_num))) (by norm_num)
  have h6 : fl ((150 : ℚ) * fl ((h : ℚ) / (w : ℚ))) * fl (0.55 : ℚ)
      ≤ (((150 : ℚ) * (((h : ℚ) / (w : ℚ)) * (1 + 1 / 2 ^ 53))) * (1 + 1 / 2 ^ 53))
        * ((11 / 20 : ℚ) * (1 + 1 / 2 ^ 53)) :=
    mul_le_mul h2 h5 hc5 hB2
  have ht0 : (0 : ℚ) ≤ fl ((150 : ℚ) * fl ((h : ℚ) / (w : ℚ))) * fl (0.55 : ℚ) :=
    mul_nonneg hx2 hc5
  have h7 := fl_le_of_le ht0 h6
  have heq : ((((150 : ℚ) * (((h : ℚ) / (w : ℚ)) * (1 + 1 / 2 ^ 53))) * (1 + 1 / 2 ^ 53))
        * ((11 / 20 : ℚ) * (1 + 1 / 2 ^ 53))) * (1 + 1 / 2 ^ 53)
      = (165 * (h : ℚ) / (2 * w)) * ((1 + 1 / 2 ^ 53)) ^ 4 := by
    ring
  have hpow : ((1 : ℚ) + 1 / 2 ^ 53) ^ 4 ≤ 1 + 1 / 2 ^ 49 := by norm_num
  have hv0 : (0 : ℚ) ≤ 165 * (h : ℚ) / (2 * w) := by positivity
  have h8 : (165 * (h : ℚ) / (2 * w)) * ((1 + 1 / 2 ^ 53)) ^ 4
      ≤ 165 * (h : ℚ) / (2 * w) * (1 + 1 / 2 ^ 49) :=
    mul_le_mul_of_nonneg_left hpow hv0
  unfold resizeHeightFloat
  simp only [Nat.cast_ofNat]
  calc fl (fl ((150 : ℚ) * fl ((h : ℚ) / (w : ℚ))) * fl (0.55 : ℚ))
      ≤ ((((150 : ℚ) * (((h : ℚ) / (w : ℚ)) * (1 + 1 / 2 ^ 53))) * (1 + 1 / 2 ^ 53))
          * ((11 / 20 : ℚ) * (1 + 1 / 2 ^ 53))) * (1 + 1 / 2 ^ 53) := h7
    _ = (165 * (h : ℚ) / (2 * w)) * ((1 + 1 / 2 ^ 53)) ^ 4 := heq
    _ ≤ 165 * (h : ℚ) / (2 * w) * (1 + 1 / 2 ^ 49) := h8

lemma le_resizeHeightFloat (w h : ℕ) :
    165 * (h : ℚ) / (2 * w) * (1 - 1 / 2 ^ 49) ≤ resizeHeightFloat w h 150 := by
  have ha : (0 : ℚ) ≤ (h : ℚ) / (w : ℚ) := by positivity
  have hx1 : (0 : ℚ) ≤ fl ((h : ℚ) / (w : ℚ)) := fl_nonneg _ ha
  have h1 : ((h : ℚ) / (w : ℚ)) * (1 - 1 / 2 ^ 53) ≤ fl ((h : ℚ) / (w : ℚ)) :=
    (fl_bounds _ ha).1
  have hy2 : (0 : ℚ) ≤ (150 : ℚ) * fl ((h : ℚ) / (w : ℚ)) := mul_nonneg (by norm_num) hx1
  have h2 : ((150 : ℚ) * (((h : ℚ) / (w : ℚ)) * (1 - 1 / 2 ^ 53))) * (1 - 1 / 2 ^ 53)
      ≤ fl ((150 : ℚ) * fl ((h : ℚ) / (w : ℚ))) :=
    le_fl_of_le hy2 (mul_le_mul_of_nonneg_left h1 (by norm_num))
  have h5 : (11 / 20 : ℚ) * (1 - 1 / 2 ^ 53) ≤ fl (0.55 : ℚ) := by
    have h55 := (fl_bounds (0.55 : ℚ) (by norm_num)).1
    have heq55 : (0.55 : ℚ) * (1 - 1 / 2 ^ 53) = (11 / 20 : ℚ) * (1 - 1 / 2 ^ 53) := by
      norm_num
    exact le_trans (le_of_eq heq55.symm) h55
  have hx2 : (0 : ℚ) ≤ fl ((150 : ℚ) * fl ((h : ℚ) / (w : ℚ))) := fl_nonneg _ hy2
  have hB5 : (0 : ℚ) ≤ (11 / 20 : ℚ) * (1 - 1 / 2 ^ 53) := by norm_num
  have h6 : (((150 : ℚ) * (((h : ℚ) / (w : ℚ)) * (1 - 1 / 2 ^ 53))) * (1 - 1 / 2 ^ 53))
        * ((11 / 20 : ℚ) * (1 - 1 / 2 ^ 53))
      ≤ fl ((150 : ℚ) * fl ((h : ℚ) / (w : ℚ))) * fl (0.55 : ℚ) :=
    mul_le_mul h2 h5 hB5 hx2
  have hc5 : (0 : ℚ) ≤ fl (0.55 : ℚ) := fl_nonneg _ (by norm_num)
  have ht0 : (0 : ℚ) ≤ fl ((150 : ℚ) * fl ((h : ℚ) / (w : ℚ))) * fl (0.55 : ℚ) :=
    mul_nonneg hx2 hc5
  have h7 := le_fl_of_le ht0 h6
  have heq : ((((150 : ℚ) * (((h : ℚ) / (w : ℚ)) * (1 - 1 / 2 ^ 53))) * (1 - 1 / 2 ^ 53))
        * ((11 / 20 : ℚ) * (1 - 1 / 2 ^ 53))) * (1 - 1 / 2 ^ 53)
      = (165 * (h : ℚ) / (2 * w)) * ((1 - 1 / 2 ^ 53)) ^ 4 := by
    ring
  have hpow : 1 - 1 / 2 ^ 49 ≤ ((1 : ℚ) - 1 / 2 ^ 53) ^ 4 := by norm_num
  have hv0 : (0 : ℚ) ≤ 165 * (h : ℚ) / (2 * w) := by positivity
  have h8 : 165 * (h : ℚ) / (2 * w) * (1 - 1 / 2 ^ 49)
      ≤ (165 * (h : ℚ) / (2 * w)) * ((1 - 1 / 2 ^ 53)) ^ 4 :=
    mul_le_mul_of_nonneg_left hpow hv0
  unfold resizeHeightFloat
  simp only [Nat.cast_ofNat]
  calc 165 * (h : ℚ) / (2 * w) * (1 - 1 / 2 ^ 49)
      ≤ (165 * (h : ℚ) / (2 * w)) * ((1 - 1 / 2 ^ 53)) ^ 4 := h8
    _ = ((((150 : ℚ) * (((h : ℚ) / (w : ℚ)) * (1 - 1 / 2 ^ 53))) * (1 - 1 / 2 ^ 53))
          * ((11 / 20 : ℚ) * (1 - 1 / 2 ^ 53))) * (1 - 1 / 2 ^ 53) := heq.symm
    _ ≤ fl (fl ((150 : ℚ) * fl ((h : ℚ) / (w : ℚ))) * fl (0.55 : ℚ)) := h7

lemma resize_height_nat_bounds (w h : ℕ) (hw : 0 < w) (hh : h ≤ 2 ^ 32) :
    (resizeFrameDims w h 150).2 * (2 * w) ≤ 165 * h ∧
    165 * h ≤ ((resizeFrameDims w h 150).2 + 1) * (2 * w) := by
  have hc0 : 0 ≤ resizeHeightFloat w h 150 := resizeHeightFloat_nonneg w h 150
  have hle := resizeHeightFloat_le w h
  have hge := le_resizeHeightFloat w h
  have hw' : (0 : ℚ) < (w : ℚ) := by exact_mod_cast hw
  have hwne : (w : ℚ) ≠ 0 := ne_of_gt hw'
  have hH : ((resizeFrameDims w h 150).2 : ℚ) = ((⌊resizeHeightFloat w h 150⌋ : ℤ) : ℚ) := by
    simp only [resizeFrameDims]
    rw [pyInt_of_nonneg hc0]
    exact_mod_cast Int.toNat_of_nonneg (Int.floor_nonneg.mpr hc0)
  have hfl1 : ((⌊resizeHeightFloat w h 150⌋ : ℤ) : ℚ) ≤ resizeHeightFloat w h 150 :=
    Int.floor_le _
  have hfl2 : resizeHeightFloat w h 150 < ((⌊resizeHeightFloat w h 150⌋ : ℤ) : ℚ) + 1 :=
    Int.lt_floor_add_one _
  have hsmall : 165 * (h : ℚ) * (1 / 2 ^ 49) < 1 := by
    have h32 : (h : ℚ) ≤ 2 ^ 32 := by exact_mod_cast hh
    have hstep : 165 * (h : ℚ) * (1 / 2 ^ 49) ≤ 165 * ((2 : ℚ) ^ 32) * (1 / 2 ^ 49) := by
      have := mul_le_mul_of_nonneg_left h32 (by norm_num : (0 : ℚ) ≤ 165)
      exact mul_le_mul_of_nonneg_right this (by norm_num)
    have hlit : 165 * ((2 : ℚ) ^ 32) * (1 / 2 ^ 49) < 1 := by norm_num
    linarith
  constructor
  · have hq : ((resizeFrameDims w h 150).2 : ℚ) * (2 * w) < 165 * h + 1 := by
      have hHle : ((resizeFrameDims w h 150).2 : ℚ)
          ≤ 165 * (h : ℚ) / (2 * w) * (1 + 1 / 2 ^ 49) := by
        rw [hH]
        exact le_trans hfl1 hle
      have e1 : 165 * (h : ℚ) / (2 * w) * (1 + 1 / 2 ^ 49) * (2 * w)
          = 165 * h + 165 * (h : ℚ) * (1 / 2 ^ 49) := by
        field_simp
        ring
      calc ((resizeFrameDims w h 150).2 : ℚ) * (2 * w)
          ≤ 165 * (h : ℚ) / (2 * w) * (1 + 1 / 2 ^ 49) * (2 * w) :=
            mul_le_mul_of_nonneg_right hHle (by positivity)
        _ = 165 * h + 165 * (h : ℚ) * (1 / 2 ^ 49) := e1
        _ < 165 * h + 1 := by linarith
    have hnat : (resizeFrameDims w h 150).2 * (2 * w) < 165 * h + 1 := by
      exact_mod_cast hq
    omega
  · have hq : (165 * h : ℚ) - 165 * (h : ℚ) * (1 / 2 ^ 49)
        < (((resizeFrameDims w h 150).2 : ℚ) + 1) * (2 * w) := by
      have hHgt : 165 * (h : ℚ) / (2 * w) * (1 - 1 / 2 ^ 49)
          < ((resizeFrameDims w h 150).2 : ℚ) + 1 := by
        rw [hH]
        exact lt_of_le_of_lt hge hfl2
      have e2 : 165 * (h : ℚ) / (2 * w) * (1 - 1 / 2 ^ 49) * (2 * w)
          = 165 * h - 165 * (h : ℚ) * (1 / 2 ^ 49) := by
        field_simp
        ring
      calc (165 * h : ℚ) - 165 * (h : ℚ) * (1 / 2 ^ 49)
          = 165 * (h : ℚ) / (2 * w) * (1 - 1 / 2 ^ 49) * (2 * w) := e2.symm
        _ < (((resizeFrameDims w h 150).2 : ℚ) + 1) * (2 * w) :=
            mul_lt_mul_of_pos_right hHgt (by positivity)
    have hq2 : (165 * h : ℚ) < (((resizeFrameDims w h 150).2 : ℚ) + 1) * (2 * w) + 1 := by
      linarith
    have hnat : 165 * h < ((resizeFrameDims w h 150).2 + 1) * (2 * w) + 1 := by
      exact_mod_cast hq2
    omega

lemma int_log_eq {x : ℚ} {e : ℤ} (hx : 0 < x) (h1 : (2 : ℚ) ^ e ≤ x)
    (h2 : x < (2 : ℚ) ^ (e + 1)) : Int.log 2 x = e := by
  have hcast : ((2 : ℕ) : ℚ) = 2 := by norm_num
  have ha : e ≤ Int.log 2 x := by
    rw [← Int.zpow_le_iff_le_log (by norm_num) hx, hcast]
    exact h1
  have hb : Int.log 2 x < e + 1 := by
    rw [← Int.lt_zpow_iff_log_lt (by norm_num) hx, hcast]
    exact h2
  omega

lemma fl_eval {x z : ℚ} {e m : ℤ} (hx : x ≠ 0) (hlog : Int.log 2 x = e)
    (hm : rhe (x / 2 ^ (e - 52)) = m) (hz : ((m : ℤ) : ℚ) * 2 ^ (e - 52) = z) :
    fl x = z := by
  unfold fl
  rw [if_neg hx, hlog, hm, hz]

lemma fl_A : fl ((146 : ℚ) / 15) = 5479379546634103 / 562949953421312 := by
  have hlog : Int.log 2 ((146 : ℚ) / 15) = 3 :=
    int_log_eq (by norm_num) (by norm_num) (by norm_num)
  have hm : rhe ((146 : ℚ) / 15 / 2 ^ ((3 : ℤ) - 52)) = 5479379546634103 := by
    have harg : (146 : ℚ) / 15 / 2 ^ ((3 : ℤ) - 52)
        = ((82190693199511552 : ℕ) : ℚ) / ((15 : ℕ) : ℚ) := by norm_num
    rw [harg]
    unfold rhe
    rw [floor_natCast_div 82190693199511552 15 (by norm_num)]
    norm_num
  exact fl_eval (by norm_num) hlog hm (by norm_num)

lemma fl_C : fl (0.55 : ℚ) = 2476979795053773 / 4503599627370496 := by
  have hlog : Int.log 2 (0.55 : ℚ) = -1 :=
    int_log_eq (by norm_num) (by norm_num) (by norm_num)
  have hm : rhe ((0.55 : ℚ) / 2 ^ ((-1 : ℤ) - 52)) = 4953959590107546 := by
    have harg : (0.55 : ℚ) / 2 ^ ((-1 : ℤ) - 52)
        = ((24769797950537728 : ℕ) : ℚ) / ((5 : ℕ) : ℚ) := by norm_num
    rw [harg]
    unfold rhe
    rw [floor_natCast_div 24769797950537728 5 (by norm_num)]
    norm_num
  exact fl_eval (by norm_num) hlog hm (by norm_num)

lemma fl_B : fl ((150 : ℚ) * (5479379546634103 / 562949953421312))
    = 6421147906211839 / 4398046511104 := by
  have hlog : Int.log 2 ((150 : ℚ) * (5479379546634103 / 562949953421312)) = 10 :=
    int_log_eq (by norm_num) (by norm_num) (by norm_num)
  have hm : rhe ((150 : ℚ) * (5479379546634103 / 562949953421312) / 2 ^ ((10 : ℤ) - 52))
      = 6421147906211839 := by
    have harg : (150 : ℚ) * (5479379546634103 / 562949953421312) / 2 ^ ((10 : ℤ) - 52)
        = ((410953465997557725 : ℕ) : ℚ) / ((64 : ℕ) : ℚ) := by norm_num
    rw [harg]
    unfold rhe
    rw [floor_natCast_div 410953465997557725 64 (by norm_num)]
    norm_num
  exact fl_eval (by norm_num) hlog hm (by norm_num)

lemma fl_D : fl ((6421147906211839 / 4398046511104 : ℚ)
      * (2476979795053773 / 4503599627370496))
    = 7063262696833023 / 8796093022208 := by
  have hlog : Int.log 2 ((6421147906211839 / 4398046511104 : ℚ)
      * (2476979795053773 / 4503599627370496)) = 9 :=
    int_log_eq (by norm_num) (by norm_num) (by norm_num)
  have hm : rhe ((6421147906211839 / 4398046511104 : ℚ)
        * (2476979795053773 / 4503599627370496) / 2 ^ ((9 : ℤ) - 52))
      = 7063262696833023 := by
    have harg : (6421147906211839 / 4398046511104 : ℚ)
          * (2476979795053773 / 4503599627370496) / 2 ^ ((9 : ℤ) - 52)
        = ((15905053624738564579153734218547 : ℕ) : ℚ) / ((2251799813685248 : ℕ) : ℚ) := by
      norm_num
    rw [harg]
    unfold rhe
    rw [floor_natCast_div 15905053624738564579153734218547 2251799813685248 (by norm_num)]
    norm_num
  exact fl_eval (by norm_num) hlog hm (by norm_num)

lemma resize_15_146 : (resizeFrameDims 15 146 150).2 = 802 := by
  have hfinal : resizeHeightFloat 15 146 150 = 7063262696833023 / 8796093022208 := by
    unfold resizeHeightFloat
    simp only [Nat.cast_ofNat]
    rw [fl_A, fl_C, fl_B, fl_D]
  simp only [resizeFrameDims]
  rw [hfinal,
    pyInt_of_nonneg (by norm_num : (0 : ℚ) ≤ 7063262696833023 / 8796093022208)]
  rw [show (7063262696833023 / 8796093022208 : ℚ)
      = ((7063262696833023 : ℕ) : ℚ) / ((8796093022208 : ℕ) : ℚ) by norm_num]
  rw [floor_natCast_div 7063262696833023 8796093022208 (by norm_num)]
  norm_num
  decide

/-- Claim C4, counterexample: for a source frame of width 15 and height
146, the binary64 evaluation of `150 * (146/15) * 0.55` lands just below
the exact value 803 and `int()` truncates it to 802, while the spec's
rounded formula gives `round(803) = 803`. -/
theorem resize_round_counterexample :
    (resizeFrameDims 15 146 150).2 = 802 ∧ specResizeHeight 15 146 150 = 803 ∧
      ((resizeFrameDims 15 146 150).2 : ℤ) ≠ specResizeHeight 15 146 150 := by
  have hspec : specResizeHeight 15 146 150 = 803 := by
    have h6 : ((150 : ℕ) : ℚ) * (((146 : ℕ) : ℚ) / ((15 : ℕ) : ℚ)) * 0.55 = 803 := by
      norm_num
    simp only [specResizeHeight]
    rw [h6, round_eq]
    rw [show (803 : ℚ) + 1 / 2 = ((1607 : ℕ) : ℚ) / ((2 : ℕ) : ℚ) by norm_num]
    rw [floor_natCast_div 1607 2 (by norm_num)]
    norm_num
  refine ⟨resize_15_146, hspec, ?_⟩
  rw [resize_15_146, hspec]
  decide

/-- Claim C4, amended: for every source frame of positive width and
height at most 2^32, the resize step produces width equal to the target
width, and a height within one of `floor(width * (sourceHeight/sourceWidth) * 0.55)`:
the height is computed by `int()` truncation of the binary64 float
evaluation, which equals the exact floor except at double-rounding
boundaries, where it can be one less (as at 15 x 146). -/
theorem resize_dims_near_floor (w h : ℕ) (hw : 0 < w) (hh : h ≤ 2 ^ 32) :
    (resizeFrameDims w h 150).1 = 150 ∧
    11 * 150 * h / (20 * w) - 1 ≤ (resizeFrameDims w h 150).2 ∧
    (resizeFrameDims w h 150).2 ≤ 11 * 150 * h / (20 * w) := by
  obtain ⟨hub, hlb⟩ := resize_height_nat_bounds w h hw hh
  have hdiv : 11 * 150 * h / (20 * w) = 165 * h / (2 * w) := by
    rw [show 11 * 150 * h = 10 * (165 * h) by ring, show 20 * w = 10 * (2 * w) by ring]
    exact Nat.mul_div_mul_left _ _ (by norm_num)
  refine ⟨rfl, ?_, ?_⟩
  · rw [hdiv]
    have h1 : 165 * h / (2 * w) ≤ (resizeFrameDims w h 150).2 + 1 := by
      calc 165 * h / (2 * w) ≤ ((resizeFrameDims w h 150).2 + 1) * (2 * w) / (2 * w) :=
            Nat.div_le_div_right hlb
        _ = (resizeFrameDims w h 150).2 + 1 := Nat.mul_div_cancel _ (by omega)
    omega
  · rw [hdiv]
    exact (Nat.le_div_iff_mul_le (by omega)).mpr hub

/-- Witness for the amended claim C4 at source size 10 x 7, target 150. -/
theorem resize_dims_near_floor_witness :
    0 < 10 ∧ 7 ≤ 2 ^ 32 ∧
      ((resizeFrameDims 10 7 150).1 = 150 ∧
       11 * 150 * 7 / (20 * 10) - 1 ≤ (resizeFrameDims 10 7 150).2 ∧
       (resizeFrameDims 10 7 150).2 ≤ 11 * 150 * 7 / (20 * 10)) :=
  ⟨by decide, by decide, resize_dims_near_floor 10 7 (by decide) (by decide)⟩

/-- Claim C5, counterexample: at source size 15 x 146 the program's
binary64 height is 802 while the exact value is 803, so
`|outHeight/outWidth - 0.55 * inHeight/inWidth|` equals `1/outWidth`
exactly and the claimed strict bound fails. -/
theorem resize_aspect_counterexample :
    (resizeFrameDims 15 146 150).2 = 802 ∧
    |((802 : ℚ) / 150) - 0.55 * ((146 : ℚ) / 15)| = 1 / 150 ∧
    ¬ (|(((resizeFrameDims 15 146 150).2 : ℚ) / ((resizeFrameDims 15 146 150).1 : ℚ)
          - 0.55 * ((146 : ℚ) / (15 : ℚ)))| < 1 / ((resizeFrameDims 15 146 150).1 : ℚ)) := by
  have habs : |((802 : ℚ) / 150) - 0.55 * ((146 : ℚ) / 15)| = 1 / 150 := by
    rw [show ((802 : ℚ) / 150) - 0.55 * ((146 : ℚ) / 15) = -(1 / 150) by norm_num,
      abs_neg, abs_of_pos (by norm_num : (0 : ℚ) < 1 / 150)]
  refine ⟨resize_15_146, habs, ?_⟩
  have hfst : ((resizeFrameDims 15 146 150).1 : ℚ) = 150 := by norm_num [resizeFrameDims]
  have hsnd : ((resizeFrameDims 15 146 150).2 : ℚ) = 802 := by
    rw [resize_15_146]
    norm_num
  rw [hsnd, hfst, habs]
  exact lt_irrefl (1 / 150 : ℚ)

/-- Claim C5, amended: for every source frame of positive width and
height at most 2^32, the resize step preserves aspect ratio within
rounding up to and including the boundary:
`|outHeight/outWidth - 0.55 * inHeight/inWidth| ≤ 1/outWidth` (the bound
is attained, so it cannot be strict). -/
theorem resize_aspect_within_one (w h : ℕ) (hw : 0 < w) (hh : h ≤ 2 ^ 32) :
    |(((resizeFrameDims w h 150).2 : ℚ) / ((resizeFrameDims w h 150).1 : ℚ)
        - 0.55 * ((h : ℚ) / (w : ℚ)))| ≤ 1 / ((resizeFrameDims w h 150).1 : ℚ) := by
  obtain ⟨hub, hlb⟩ := resize_height_nat_bounds w h hw hh
  have hw' : (0 : ℚ) < (w : ℚ) := by exact_mod_cast hw
  have hwne : (w : ℚ) ≠ 0 := ne_of_gt hw'
  have hfst : ((resizeFrameDims w h 150).1 : ℚ) = 150 := by norm_num [resizeFrameDims]
  rw [hfst]
  have hubq : ((resizeFrameDims w h 150).2 : ℚ) * (2 * w) ≤ 165 * h := by
    exact_mod_cast hub
  have hlbq : (165 : ℚ) * h ≤ (((resizeFrameDims w h 150).2 : ℚ) + 1) * (2 * w) := by
    exact_mod_cast hlb
  have hkey : |((resizeFrameDims w h 150).2 : ℚ) * (2 * w) - 165 * h| ≤ 2 * w := by
    rw [abs_le]
    constructor
    · have hexp : (((resizeFrameDims w h 150).2 : ℚ) + 1) * (2 * w)
          = ((resizeFrameDims w h 150).2 : ℚ) * (2 * w) + 2 * w := by ring
      rw [hexp] at hlbq
      linarith
    · linarith
  have hdiff : ((resizeFrameDims w h 150).2 : ℚ) / 150 - 0.55 * ((h : ℚ) / (w : ℚ))
      = (((resizeFrameDims w h 150).2 : ℚ) * (2 * w) - 165 * h) / (300 * w) := by
    field_simp
    ring
  rw [hdiff, abs_div, abs_of_pos (by positivity : (0 : ℚ) < 300 * w)]
  rw [div_le_div_iff₀ (by positivity) (by norm_num : (0 : ℚ) < 150)]
  calc |((resizeFrameDims w h 150).2 : ℚ) * (2 * w) - 165 * h| * 150
      ≤ (2 * w) * 150 := mul_le_mul_of_nonneg_right hkey (by norm_num)
    _ = 1 * (300 * w) := by ring

/-- Witness for the amended claim C5 at source size 10 x 7. -/
theorem resize_aspect_within_one_witness :
    0 < 10 ∧ 7 ≤ 2 ^ 32 ∧
      |(((resizeFrameDims 10 7 150).2 : ℚ) / ((resizeFrameDims 10 7 150).1 : ℚ)
          - 0.55 * (((7 : ℕ) : ℚ) / ((10 : ℕ) : ℚ)))| ≤ 1 / ((resizeFrameDims 10 7 150).1 : ℚ) :=
  ⟨by decide, by decide, resize_aspect_within_one 10 7 (by decide) (by decide)⟩

/-- Claim C6: channel quantization is idempotent (and hence so is the
whole color string), and for 8-bit inputs every quantized channel is one
of 0, 64, 128, 192. -/
theorem compress_idempotent_levels (r g b : ℕ) :
    compressRGB (compressRGB r g b).1 (compressRGB r g b).2.1 (compressRGB r g b).2.2
        = compressRGB r g b ∧
    compressColor (compressRGB r g b).1 (compressRGB r g b).2.1 (compressRGB r g b).2.2
        = compressColor r g b ∧
    (r ≤ 255 → g ≤ 255 → b ≤ 255 →
      (compressRGB r g b).1 ∈ [0, 64, 128, 192] ∧
      (compressRGB r g b).2.1 ∈ [0, 64, 128, 192] ∧
      (compressRGB r g b).2.2 ∈ [0, 64, 128, 192]) := by
  have hq : ∀ v : ℕ, v / 64 * 64 / 64 * 64 = v / 64 * 64 := fun v => by
    rw [Nat.mul_div_cancel _ (by norm_num : 0 < 64)]
  have hmem : ∀ v : ℕ, v ≤ 255 → v / 64 * 64 ∈ [0, 64, 128, 192] := by
    intro v hv
    have h4 : v / 64 = 0 ∨ v / 64 = 1 ∨ v / 64 = 2 ∨ v / 64 = 3 := by omega
    rcases h4 with h | h | h | h <;> rw [h] <;> simp
  refine ⟨?_, ?_, fun hr hg hb => ⟨hmem r hr, hmem g hg, hmem b hb⟩⟩
  · simp [compressRGB, hq]
  · simp [compressColor, compressRGB, hq]

/-- Witness for claim C6 at the 8-bit triple (200, 100, 30). -/
theorem compress_idempotent_levels_witness :
    (200 : ℕ) ≤ 255 ∧ (100 : ℕ) ≤ 255 ∧ (30 : ℕ) ≤ 255 ∧
      ((compressRGB 200 100 30).1 ∈ [0, 64, 128, 192] ∧
       (compressRGB 200 100 30).2.1 ∈ [0, 64, 128, 192] ∧
       (compressRGB 200 100 30).2.2 ∈ [0, 64, 128, 192]) :=
  ⟨by decide, by decide, by decide,
    (compress_idempotent_levels 200 100 30).2.2 (by decide) (by decide) (by decide)⟩

/- ### Helper lemmas for the render loop -/

lemma tick_some (cw chh : ℕ) (f : AsciiFrame) (s : RenderState) :
    tick cw chh (some f) s
      = ((runCells f (max 0 (Int.fdiv ((cw : ℤ) - (f.cols : ℤ) * (cellWidth : ℤ)) 2))
            (max 0 (Int.fdiv ((chh : ℤ) - (f.rows : ℤ) * (cellHeight : ℤ)) 2))
            (gridCells f.rows f.cols) s).1,
         (runCells f (max 0 (Int.fdiv ((cw : ℤ) - (f.cols : ℤ) * (cellWidth : ℤ)) 2))
            (max 0 (Int.fdiv ((chh : ℤ) - (f.rows : ℤ) * (cellHeight : ℤ)) 2))
            (gridCells f.rows f.cols) s).2,
         true) := rfl

lemma processCell_state_ne (f : AsciiFrame) (mX mY : ℤ) (y x : ℕ) (s : RenderState)
    (p : ℕ × ℕ) (hp : p ≠ (x, y)) :
    (processCell f mX mY y x s).1.lastFrame p = s.lastFrame p ∧
    (processCell f mX mY y x s).1.charMap p = s.charMap p := by
  unfold processCell
  split_ifs <;> simp [updateFun, hp]

lemma processCell_ops_pos (f : AsciiFrame) (mX mY : ℤ) (y x : ℕ) (s : RenderState) :
    ∀ op ∈ (processCell f mX mY y x s).2, op.pos = (x, y) := by
  unfold processCell
  split_ifs <;> simp [DisplayOp.pos]

lemma processCell_invisible (f : AsciiFrame) (mX mY : ℤ) (y x : ℕ) (s : RenderState)
    (h : f.gray y x < 10) : processCell f mX mY y x s = (s, []) := by
  unfold processCell
  rw [if_pos h]

lemma processCell_skip (f : AsciiFrame) (mX mY : ℤ) (y x : ℕ) (s : RenderState)
    (h : s.lastFrame (x, y) = some (cellData f y x)) :
    processCell f mX mY y x s = (s, []) := by
  unfold processCell
  split_ifs <;> simp_all

lemma processCell_lastFrame_self (f : AsciiFrame) (mX mY : ℤ) (y x : ℕ) (s : RenderState)
    (h : ¬ f.gray y x < 10) :
    (processCell f mX mY y x s).1.lastFrame (x, y) = some (cellData f y x) := by
  unfold processCell
  split_ifs with h1 h2 h3 <;> simp_all [updateFun]

lemma processCell_charMap_mono (f : AsciiFrame) (mX mY : ℤ) (y x : ℕ) (s : RenderState)
    (p : ℕ × ℕ) (h : s.charMap p = true) :
    (processCell f mX mY y x s).1.charMap p = true := by
  unfold processCell
  split_ifs <;> simp_all [updateFun]

lemma processCell_ops_shape (f : AsciiFrame) (mX mY : ℤ) (y x : ℕ) (s : RenderState) :
    (processCell f mX mY y x s).2 = [] ∨
    ∃ op, (processCell f mX mY y x s).2 = [op] ∧ op.pos = (x, y) := by
  unfold processCell
  split_ifs
  · exact Or.inl rfl
  · exact Or.inl rfl
  · exact Or.inr ⟨_, rfl, rfl⟩
  · exact Or.inr ⟨_, rfl, rfl⟩

lemma processCell_emitted_settled (f : AsciiFrame) (mX mY : ℤ) (y x : ℕ) (s : RenderState)
    (h : (processCell f mX mY y x s).2 ≠ []) :
    (processCell f mX mY y x s).1.lastFrame (x, y) = some (cellData f y x) := by
  by_cases hb : f.gray y x < 10
  · rw [processCell_invisible f mX mY y x s hb] at h
    simp at h
  · exact processCell_lastFrame_self f mX mY y x s hb

lemma processCell_settled_pres (f : AsciiFrame) (mX mY : ℤ) (y x : ℕ) (s : RenderState)
    (p : ℕ × ℕ) (h : settled f s p) : settled f (processCell f mX mY y x s).1 p := by
  by_cases hp : p = (x, y)
  · subst hp
    by_cases hb : f.gray y x < 10
    · rw [processCell_invisible f mX mY y x s hb]
      exact h
    · exact processCell_lastFrame_self f mX mY y x s hb
  · unfold settled
    rw [(processCell_state_ne f mX mY y x s p hp).1]
    exact h

lemma processCell_settled_ops (f : AsciiFrame) (mX mY : ℤ) (y x : ℕ) (s : RenderState)
    (p : ℕ × ℕ) (h : settled f s p) :
    ∀ op ∈ (processCell f mX mY y x s).2, op.pos ≠ p := by
  by_cases hp : (x, y) = p
  · subst hp
    rw [processCell_skip f mX mY y x s h]
    simp
  · intro op hop
    rw [processCell_ops_pos f mX mY y x s op hop]
    exact hp

lemma runCells_untouched (f : AsciiFrame) (mX mY : ℤ) (cells : List (ℕ × ℕ))
    (s : RenderState) (p : ℕ × ℕ)
    (hc : ∀ c ∈ cells, (c.2, c.1) = p → f.gray c.1 c.2 < 10) :
    (runCells f mX mY cells s).1.lastFrame p = s.lastFrame p ∧
    (runCells f mX mY cells s).1.charMap p = s.charMap p ∧
    ∀ op ∈ (runCells f mX mY cells s).2, op.pos ≠ p := by
  induction cells generalizing s with
  | nil => simp [runCells]
  | cons c rest ih =>
    simp only [runCells]
    have htail := ih (processCell f mX mY c.1 c.2 s).1
      (fun d hd => hc d (List.mem_cons_of_mem c hd))
    by_cases hcp : (c.2, c.1) = p
    · have hinv : f.gray c.1 c.2 < 10 := hc c (List.mem_cons_self c rest) hcp
      rw [processCell_invisible f mX mY c.1 c.2 s hinv] at htail ⊢
      simpa using htail
    · have hne := processCell_state_ne f mX mY c.1 c.2 s p
        (fun hpe => hcp (by rw [hpe]))
      refine ⟨htail.1.trans hne.1, (htail.2.1).trans hne.2, ?_⟩
      intro op hop
      rcases List.mem_append.mp hop with hmem | hmem
      · rw [processCell_ops_pos f mX mY c.1 c.2 s op hmem]
        exact hcp
      · exact htail.2.2 op hmem

lemma runCells_settled (f : AsciiFrame) (mX mY : ℤ) (cells : List (ℕ × ℕ))
    (s : RenderState) (p : ℕ × ℕ) (h : settled f s p) :
    (∀ op ∈ (runCells f mX mY cells s).2, op.pos ≠ p) ∧
    settled f (runCells f mX mY cells s).1 p := by
  induction cells generalizing s with
  | nil => simpa [runCells] using h
  | cons c rest ih =>
    simp only [runCells]
    have h1 := processCell_settled_ops f mX mY c.1 c.2 s p h
    have h2 := processCell_settled_pres f mX mY c.1 c.2 s p h
    have htail := ih _ h2
    constructor
    · intro op hop
      rcases List.mem_append.mp hop with hmem | hmem
      · exact h1 op hmem
      · exact htail.1 op hmem
    · exact htail.2

lemma runCells_countP_le_one (f : AsciiFrame) (mX mY : ℤ) (cells : List (ℕ × ℕ))
    (s : RenderState) (p : ℕ × ℕ) :
    (runCells f mX mY cells s).2.countP (fun op => decide (op.pos = p)) ≤ 1 := by
  induction cells generalizing s with
  | nil => simp [runCells]
  | cons c rest ih =>
    simp only [runCells, List.countP_append]
    rcases processCell_ops_shape f mX mY c.1 c.2 s with hsh | ⟨op, hsh, hpos⟩
    · rw [hsh]
      simpa using ih _
    · rw [hsh]
      by_cases hp : op.pos = p
      · have hne : (processCell f mX mY c.1 c.2 s).2 ≠ [] := by
          rw [hsh]; simp
        have hpeq : p = (c.2, c.1) := by rw [← hp, hpos]
        have hset : settled f (processCell f mX mY c.1 c.2 s).1 p := by
          rw [hpeq]
          exact processCell_emitted_settled f mX mY c.1 c.2 s hne
        have hz := (runCells_settled f mX mY rest _ p hset).1
        have hzero : (runCells f mX mY rest (processCell f mX mY c.1 c.2 s).1).2.countP
            (fun op => decide (op.pos = p)) = 0 := by
          rw [List.countP_eq_zero]
          intro a ha
          simpa using hz a ha
        simp [List.countP_cons, hp, hzero]
      · have hzero : ([op].countP (fun op => decide (op.pos = p))) = 0 := by
          simp [List.countP_cons, hp]
        rw [hzero]
        simpa using ih _

lemma processCell_agrees_mono (f : AsciiFrame) (mX mY : ℤ) (y x : ℕ) (s : RenderState)
    (c : ℕ × ℕ) (h : agreesAt f s c) : agreesAt f (processCell f mX mY y x s).1 c := by
  rcases h with h | h
  · exact Or.inl h
  · right
    by_cases hp : (c.2, c.1) = (x, y)
    · have hx : x = c.2 := (congrArg Prod.fst hp).symm
      have hy : y = c.1 := (congrArg Prod.snd hp).symm
      subst hx
      subst hy
      by_cases hb : f.gray c.1 c.2 < 10
      · rw [processCell_invisible f mX mY c.1 c.2 s hb]
        exact h
      · exact processCell_lastFrame_self f mX mY c.1 c.2 s hb
    · rw [(processCell_state_ne f mX mY y x s (c.2, c.1) hp).1]
      exact h

lemma processCell_agrees_self (f : AsciiFrame) (mX mY : ℤ) (y x : ℕ) (s : RenderState) :
    agreesAt f (processCell f mX mY y x s).1 (y, x) := by
  by_cases hb : f.gray y x < 10
  · exact Or.inl hb
  · exact Or.inr (processCell_lastFrame_self f mX mY y x s hb)

lemma runCells_agrees_mono (f : AsciiFrame) (mX mY : ℤ) (cells : List (ℕ × ℕ))
    (s : RenderState) (c : ℕ × ℕ) (h : agreesAt f s c) :
    agreesAt f (runCells f mX mY cells s).1 c := by
  induction cells generalizing s with
  | nil => simpa [runCells] using h
  | cons d rest ih =>
    simp only [runCells]
    exact ih _ (processCell_agrees_mono f mX mY d.1 d.2 s c h)

lemma runCells_agrees_mem (f : AsciiFrame) (mX mY : ℤ) (cells : List (ℕ × ℕ))
    (s : RenderState) (c : ℕ × ℕ) (h : c ∈ cells) :
    agreesAt f (runCells f mX mY cells s).1 c := by
  induction cells generalizing s with
  | nil => cases h
  | cons d rest ih =>
    simp only [runCells]
    rcases List.mem_cons.mp h with rfl | h2
    · exact runCells_agrees_mono f mX mY rest _ c
        (processCell_agrees_self f mX mY c.1 c.2 s)
    · exact ih _ h2

lemma runCells_skip_all (f : AsciiFrame) (mX mY : ℤ) (cells : List (ℕ × ℕ))
    (s : RenderState) (h : ∀ c ∈ cells, agreesAt f s c) :
    runCells f mX mY cells s = (s, []) := by
  induction cells with
  | nil => rfl
  | cons c rest ih =>
    have hpc : processCell f mX mY c.1 c.2 s = (s, []) := by
      rcases h c (List.mem_cons_self c rest) with hb | hl
      · exact processCell_invisible f mX mY c.1 c.2 s hb
      · exact processCell_skip f mX mY c.1 c.2 s hl
    have htail := ih (fun d hd => h d (List.mem_cons_of_mem c hd))
    simp only [runCells, hpc]
    simp [htail]

lemma createsAt_append (p : ℕ × ℕ) (l1 l2 : List DisplayOp) :
    createsAt p (l1 ++ l2) = createsAt p l1 + createsAt p l2 := by
  simp [createsAt, List.countP_append]

lemma charMap_if_mono {s s' : RenderState} {p : ℕ × ℕ}
    (h : s.charMap p = true → s'.charMap p = true) :
    (if s.charMap p then (1 : ℕ) else 0) ≤ (if s'.charMap p then (1 : ℕ) else 0) := by
  cases hc : s.charMap p
  · simp
  · simp [h hc]

lemma processCell_domInv (f : AsciiFrame) (mX mY : ℤ) (y x : ℕ) (s : RenderState)
    (h : domInv s) : domInv (processCell f mX mY y x s).1 := by
  unfold processCell
  split_ifs with h1 h2 h3
  · exact h
  · exact h
  · intro p
    by_cases hp : p = (x, y)
    · subst hp
      simp [updateFun, h3]
    · simp only [updateFun]
      simpa [hp] using h p
  · intro p
    by_cases hp : p = (x, y)
    · subst hp
      simp [updateFun]
    · simp only [updateFun]
      simpa [hp] using h p

lemma processCell_createsAt (f : AsciiFrame) (mX mY : ℤ) (y x : ℕ) (s : RenderState)
    (p : ℕ × ℕ) :
    createsAt p (processCell f mX mY y x s).2
      = (if (processCell f mX mY y x s).1.charMap p then 1 else 0)
        - (if s.charMap p then 1 else 0) := by
  by_cases h1 : f.gray y x < 10
  · rw [processCell_invisible f mX mY y x s h1]
    simp [createsAt]
  by_cases h2 : s.lastFrame (x, y) = some (cellData f y x)
  · rw [processCell_skip f mX mY y x s h2]
    simp [createsAt]
  by_cases h3 : s.charMap (x, y) = true
  · have hpc : processCell f mX mY y x s
        = (RenderState.mk (updateFun s.lastFrame (x, y) (some (cellData f y x))) s.charMap,
           [DisplayOp.itemconfig (x, y) (cellData f y x).1 (cellData f y x).2]) := by
      unfold processCell
      rw [if_neg h1, if_neg h2, if_pos h3]
    rw [hpc]
    simp [createsAt, DisplayOp.isCreate]
  · have hpc : processCell f mX mY y x s
        = (RenderState.mk (updateFun s.lastFrame (x, y) (some (cellData f y x)))
             (updateFun s.charMap (x, y) true),
           [DisplayOp.create (x, y) (mX + (x : ℤ) * (cellWidth : ℤ))
              (mY + (y : ℤ) * (cellHeight : ℤ)) (cellData f y x).1 (cellData f y x).2]) := by
      unfold processCell
      rw [if_neg h1, if_neg h2, if_neg h3]
    rw [hpc]
    by_cases hp : p = (x, y)
    · subst hp
      simp [createsAt, DisplayOp.isCreate, DisplayOp.pos, updateFun, h3]
    · simp [createsAt, DisplayOp.isCreate, DisplayOp.pos, updateFun, hp, Ne.symm hp]

lemma runCells_charMap_mono (f : AsciiFrame) (mX mY : ℤ) (cells : List (ℕ × ℕ))
    (s : RenderState) (p : ℕ × ℕ) (h : s.charMap p = true) :
    (runCells f mX mY cells s).1.charMap p = true := by
  induction cells generalizing s with
  | nil => simpa [runCells] using h
  | cons c rest ih =>
    simp only [runCells]
    exact ih _ (processCell_charMap_mono f mX mY c.1 c.2 s p h)

lemma runCells_domInv (f : AsciiFrame) (mX mY : ℤ) (cells : List (ℕ × ℕ))
    (s : RenderState) (h : domInv s) : domInv (runCells f mX mY cells s).1 := by
  induction cells generalizing s with
  | nil => simpa [runCells] using h
  | cons c rest ih =>
    simp only [runCells]
    exact ih _ (processCell_domInv f mX mY c.1 c.2 s h)

lemma runCells_createsAt (f : AsciiFrame) (mX mY : ℤ) (cells : List (ℕ × ℕ))
    (s : RenderState) (p : ℕ × ℕ) :
    createsAt p (runCells f mX mY cells s).2
      = (if (runCells f mX mY cells s).1.charMap p then 1 else 0)
        - (if s.charMap p then 1 else 0) := by
  induction cells generalizing s with
  | nil => simp [runCells, createsAt]
  | cons c rest ih =>
    simp only [runCells]
    rw [createsAt_append, processCell_createsAt, ih]
    have hm1 : (if s.charMap p then (1 : ℕ) else 0)
        ≤ (if (processCell f mX mY c.1 c.2 s).1.charMap p then (1 : ℕ) else 0) :=
      charMap_if_mono (processCell_charMap_mono f mX mY c.1 c.2 s p)
    have hm2 : (if (processCell f mX mY c.1 c.2 s).1.charMap p then (1 : ℕ) else 0)
        ≤ (if (runCells f mX mY rest (processCell f mX mY c.1 c.2 s).1).1.charMap p
            then (1 : ℕ) else 0) :=
      charMap_if_mono (runCells_charMap_mono f mX mY rest _ p)
    omega

lemma tick_domInv (cw chh : ℕ) (mf : Option AsciiFrame) (s : RenderState)
    (h : domInv s) : domInv (tick cw chh mf s).1 := by
  cases mf with
  | none => exact h
  | some f =>
    rw [tick_some]
    exact runCells_domInv f _ _ _ s h

lemma tick_charMap_mono (cw chh : ℕ) (mf : Option AsciiFrame) (s : RenderState)
    (p : ℕ × ℕ) (h : s.charMap p = true) : (tick cw chh mf s).1.charMap p = true := by
  cases mf with
  | none => exact h
  | some f =>
    rw [tick_some]
    exact runCells_charMap_mono f _ _ _ s p h

lemma tick_createsAt (cw chh : ℕ) (mf : Option AsciiFrame) (s : RenderState) (p : ℕ × ℕ) :
    createsAt p (tick cw chh mf s).2.1
      = (if (tick cw chh mf s).1.charMap p then 1 else 0)
        - (if s.charMap p then 1 else 0) := by
  cases mf with
  | none => simp [tick, createsAt]
  | some f =>
    rw [tick_some]
    exact runCells_createsAt f _ _ _ s p

lemma runTicks_charMap_mono (inputs : List (ℕ × ℕ × Option AsciiFrame)) (s : RenderState)
    (p : ℕ × ℕ) (h : s.charMap p = true) : (runTicks inputs s).1.charMap p = true := by
  induction inputs generalizing s with
  | nil => simpa [runTicks] using h
  | cons i rest ih =>
    simp only [runTicks]
    exact ih _ (tick_charMap_mono i.1 i.2.1 i.2.2 s p h)

lemma runTicks_domInv (inputs : List (ℕ × ℕ × Option AsciiFrame)) (s : RenderState)
    (h : domInv s) : domInv (runTicks inputs s).1 := by
  induction inputs generalizing s with
  | nil => simpa [runTicks] using h
  | cons i rest ih =>
    simp only [runTicks]
    exact ih _ (tick_domInv i.1 i.2.1 i.2.2 s h)

lemma runTicks_createsAt (inputs : List (ℕ × ℕ × Option AsciiFrame)) (s : RenderState)
    (p : ℕ × ℕ) :
    createsAt p (runTicks inputs s).2
      = (if (runTicks inputs s).1.charMap p then 1 else 0)
        - (if s.charMap p then 1 else 0) := by
  induction inputs generalizing s with
  | nil => simp [runTicks, createsAt]
  | cons i rest ih =>
    simp only [runTicks]
    rw [createsAt_append, tick_createsAt, ih]
    have hm1 : (if s.charMap p then (1 : ℕ) else 0)
        ≤ (if (tick i.1 i.2.1 i.2.2 s).1.charMap p then (1 : ℕ) else 0) :=
      charMap_if_mono (tick_charMap_mono i.1 i.2.1 i.2.2 s p)
    have hm2 : (if (tick i.1 i.2.1 i.2.2 s).1.charMap p then (1 : ℕ) else 0)
        ≤ (if (runTicks rest (tick i.1 i.2.1 i.2.2 s).1).1.charMap p then (1 : ℕ) else 0) :=
      charMap_if_mono (runTicks_charMap_mono rest _ p)
    omega

/- ### Claims about the render loop -/

/-- Claim C2: a cell whose brightness is below 10 is omitted entirely by
the render pass: no operation addresses it, and both the recorded
(glyph, color) and the display-object record at its position are left
unchanged (so a previously drawn glyph stays on screen). -/
theorem invisible_cell_untouched (cw chh : ℕ) (f : AsciiFrame) (s : RenderState)
    (x y : ℕ) (hx : x < f.cols) (hy : y < f.rows) (hb : f.gray y x < 10) :
    (tick cw chh (some f) s).1.lastFrame (x, y) = s.lastFrame (x, y) ∧
    (tick cw chh (some f) s).1.charMap (x, y) = s.charMap (x, y) ∧
    ∀ op ∈ (tick cw chh (some f) s).2.1, op.pos ≠ (x, y) := by
  rw [tick_some]
  refine runCells_untouched f _ _ (gridCells f.rows f.cols) s (x, y) ?_
  intro c hc hcp
  have hy' : c.1 = y := congrArg Prod.snd hcp
  have hx' : c.2 = x := congrArg Prod.fst hcp
  rw [hy', hx']
  exact hb

/-- Witness for claim C2: the cell (0, 0) of `fInv` has brightness 5, and
a tick from the prior state `sPrev` (which recorded a glyph at (0, 0))
leaves that entry and its display object untouched. -/
theorem invisible_cell_untouched_witness :
    0 < fInv.cols ∧ 0 < fInv.rows ∧ fInv.gray 0 0 < 10 ∧
    ((tick 300 300 (some fInv) sPrev).1.lastFrame (0, 0) = sPrev.lastFrame (0, 0) ∧
     (tick 300 300 (some fInv) sPrev).1.charMap (0, 0) = sPrev.charMap (0, 0) ∧
     ∀ op ∈ (tick 300 300 (some fInv) sPrev).2.1, op.pos ≠ (0, 0)) :=
  ⟨by decide, by decide, by decide,
    invisible_cell_untouched 300 300 fInv sPrev 0 0 (by decide) (by decide) (by decide)⟩

/-- Claim C3: in one render tick each position receives at most one
display operation per distinct (glyph, color) value, and a second tick on
the same frame performs no display operations and leaves the state (in
particular the last-rendered table) unchanged. -/
theorem diff_render_once_idem (cw chh : ℕ) (f : AsciiFrame) (s : RenderState) :
    (∀ p v, (tick cw chh (some f) s).2.1.countP
        (fun op => decide (op.pos = p ∧ opValue op = v)) ≤ 1) ∧
    tick cw chh (some f) (tick cw chh (some f) s).1
      = ((tick cw chh (some f) s).1, [], true) := by
  constructor
  · intro p v
    rw [tick_some]
    refine le_trans (List.countP_mono_left ?_) (runCells_countP_le_one f _ _ _ s p)
    intro a ha hpa
    simp only [decide_eq_true_eq] at hpa ⊢
    exact hpa.1
  · rw [tick_some, tick_some]
    rw [runCells_skip_all f _ _ (gridCells f.rows f.cols) _
      (fun c hc => runCells_agrees_mem f _ _ (gridCells f.rows f.cols) s c hc)]

/-- Claim C9: a render tick that observes no available frame is a no-op
that only reschedules itself: no display operations, and both tables are
unchanged. -/
theorem tick_no_frame_noop (cw chh : ℕ) (s : RenderState) :
    tick cw chh none s = (s, [], true) := rfl

lemma processCell_create_coords (f : AsciiFrame) (mX mY : ℤ) (y x : ℕ) (s : RenderState)
    (q : ℕ × ℕ) (px py : ℤ) (c : Char) (col : String)
    (hmem : DisplayOp.create q px py c col ∈ (processCell f mX mY y x s).2) :
    px = mX + (q.1 : ℤ) * (cellWidth : ℤ) ∧ py = mY + (q.2 : ℤ) * (cellHeight : ℤ) := by
  unfold processCell at hmem
  split_ifs at hmem <;> simp at hmem
  obtain ⟨hq, hpx, hpy, hc2, hcol⟩ := hmem
  subst hq
  exact ⟨hpx, hpy⟩

lemma runCells_create_coords (f : AsciiFrame) (mX mY : ℤ) (cells : List (ℕ × ℕ))
    (s : RenderState) (q : ℕ × ℕ) (px py : ℤ) (c : Char) (col : String)
    (hmem : DisplayOp.create q px py c col ∈ (runCells f mX mY cells s).2) :
    px = mX + (q.1 : ℤ) * (cellWidth : ℤ) ∧ py = mY + (q.2 : ℤ) * (cellHeight : ℤ) := by
  induction cells generalizing s with
  | nil => simp [runCells] at hmem
  | cons d rest ih =>
    simp only [runCells] at hmem
    rcases List.mem_append.mp hmem with h | h
    · exact processCell_create_coords f mX mY d.1 d.2 s q px py c col h
    · exact ih _ h

/-- Claim C8, amended: every display object created during a tick for
position (x, y) is placed at `margin + (x*cellWidth, y*cellHeight)`, where
each margin is the centering margin `(avail - grid) / 2` clamped below at
0 — the grid is centered when it fits in the drawing area, and the margin
is 0 (not negative) when the grid exceeds it. -/
theorem create_position (cw chh : ℕ) (f : AsciiFrame) (s : RenderState)
    (q : ℕ × ℕ) (px py : ℤ) (c : Char) (col : String)
    (hmem : DisplayOp.create q px py c col ∈ (tick cw chh (some f) s).2.1) :
    px = max 0 (specCenterMargin cw (f.cols * cellWidth)) + (q.1 : ℤ) * (cellWidth : ℤ) ∧
    py = max 0 (specCenterMargin chh (f.rows * cellHeight)) + (q.2 : ℤ) * (cellHeight : ℤ) := by
  rw [tick_some] at hmem
  have h := runCells_create_coords f
    (max 0 (Int.fdiv ((cw : ℤ) - (f.cols : ℤ) * (cellWidth : ℤ)) 2))
    (max 0 (Int.fdiv ((chh : ℤ) - (f.rows : ℤ) * (cellHeight : ℤ)) 2))
    (gridCells f.rows f.cols) s q px py c col hmem
  have hmx : max 0 (Int.fdiv ((cw : ℤ) - (f.cols : ℤ) * (cellWidth : ℤ)) 2)
      = max 0 (specCenterMargin cw (f.cols * cellWidth)) := by
    unfold specCenterMargin
    push_cast
    rfl
  have hmy : max 0 (Int.fdiv ((chh : ℤ) - (f.rows : ℤ) * (cellHeight : ℤ)) 2)
      = max 0 (specCenterMargin chh (f.rows * cellHeight)) := by
    unfold specCenterMargin
    push_cast
    rfl
  rw [hmx] at h
  rw [hmy] at h
  exact h

lemma fSmall_trace :
    (tick 4 9 (some fSmall) initState).2.1
      = [DisplayOp.create (0, 0) 0 0 (cellData fSmall 0 0).1 (cellData fSmall 0 0).2] := by
  have hb : ¬ fSmall.gray 0 0 < 10 := by decide
  have hl : ¬ (initState.lastFrame (0, 0) = some (cellData fSmall 0 0)) := by
    simp [initState]
  have hcm : ¬ (initState.charMap (0, 0) = true) := by decide
  have hpc : processCell fSmall 0 0 0 0 initState
      = (RenderState.mk (updateFun initState.lastFrame (0, 0) (some (cellData fSmall 0 0)))
           (updateFun initState.charMap (0, 0) true),
         [DisplayOp.create (0, 0) (0 + ((0 : ℕ) : ℤ) * (cellWidth : ℤ))
            (0 + ((0 : ℕ) : ℤ) * (cellHeight : ℤ))
            (cellData fSmall 0 0).1 (cellData fSmall 0 0).2]) := by
    unfold processCell
    rw [if_neg hb, if_neg hl, if_neg hcm]
  rw [tick_some]
  have hmx : max 0 (Int.fdiv (((4 : ℕ) : ℤ) - (fSmall.cols : ℤ) * (cellWidth : ℤ)) 2)
      = (0 : ℤ) := by decide
  have hmy : max 0 (Int.fdiv (((9 : ℕ) : ℤ) - (fSmall.rows : ℤ) * (cellHeight : ℤ)) 2)
      = (0 : ℤ) := by decide
  rw [hmx, hmy]
  have hgc : gridCells fSmall.rows fSmall.cols = [((0 : ℕ), (0 : ℕ))] := by decide
  rw [hgc]
  simp only [runCells]
  rw [hpc]
  simp

/-- Claim C8, counterexample: with a 4-pixel-wide canvas and a 1 x 1
grid (grid width 5 exceeds the canvas width), the display object for
cell (0, 0) is created at x-coordinate 0, while the margin that centers
the grid within the drawing area would be -1, so the creation position
is not `centering margin + x * cellWidth` for every canvas size. -/
theorem create_position_counterexample :
    DisplayOp.create (0, 0) 0 0 (cellData fSmall 0 0).1 (cellData fSmall 0 0).2
        ∈ (tick 4 9 (some fSmall) initState).2.1 ∧
    specCenterMargin 4 (fSmall.cols * cellWidth)
        + ((((0, 0) : ℕ × ℕ)).1 : ℤ) * (cellWidth : ℤ) = -1 ∧
    (0 : ℤ) ≠ -1 := by
  refine ⟨?_, by decide, by decide⟩
  rw [fSmall_trace]
  simp

/-- Witness for the amended claim C8: the creation observed in the
`fSmall` tick is placed at the clamped centering margin plus the cell
offset in both coordinates. -/
theorem create_position_witness :
    (DisplayOp.create (0, 0) 0 0 (cellData fSmall 0 0).1 (cellData fSmall 0 0).2
        ∈ (tick 4 9 (some fSmall) initState).2.1) ∧
    ((0 : ℤ) = max 0 (specCenterMargin 4 (fSmall.cols * cellWidth))
        + ((((0, 0) : ℕ × ℕ)).1 : ℤ) * (cellWidth : ℤ) ∧
     (0 : ℤ) = max 0 (specCenterMargin 9 (fSmall.rows * cellHeight))
        + ((((0, 0) : ℕ × ℕ)).2 : ℤ) * (cellHeight : ℤ)) :=
  ⟨by rw [fSmall_trace]; simp,
   create_position 4 9 fSmall initState (0, 0) 0 0 (cellData fSmall 0 0).1
     (cellData fSmall 0 0).2 (by rw [fSmall_trace]; simp)⟩

/-- Claim C10: after any run of render ticks from the initial state, a
position has a recorded (glyph, color) iff it has a created display
object, and the run emits exactly one creation for it in that case and
none otherwise. -/
theorem render_tables_aligned (inputs : List (ℕ × ℕ × Option AsciiFrame)) (p : ℕ × ℕ) :
    (((runTicks inputs initState).1.lastFrame p).isSome
        ↔ (runTicks inputs initState).1.charMap p = true) ∧
    createsAt p (runTicks inputs initState).2
      = if ((runTicks inputs initState).1.lastFrame p).isSome then 1 else 0 := by
  have hdom : domInv (runTicks inputs initState).1 :=
    runTicks_domInv inputs initState (fun q => by simp [initState])
  refine ⟨hdom p, ?_⟩
  rw [runTicks_createsAt]
  have h0 : (if initState.charMap p then (1 : ℕ) else 0) = 0 := by simp [initState]
  rw [h0, Nat.sub_zero]
  by_cases hcm : (runTicks inputs initState).1.charMap p = true
  · rw [if_pos hcm, if_pos ((hdom p).mpr hcm)]
  · rw [if_neg hcm, if_neg (fun hsome => hcm ((hdom p).mp hsome))]
